import Mathlib

/-!
Verification of the `regexptable` Go package (multi-pattern regexp
classification).  The package compiles many regexp patterns into one union
regexp with synthetic named capture groups, then disambiguates which pattern
fired after a combined match.

The regexp backend is pluggable behind the `RegexpEngine` / `CompiledRegexp`
interfaces, so we embed those interfaces as structures of Lean functions and
prove the table algorithms (`AddPattern`, `Recompile`, `Lookup`, ...) correct
for every engine.  Go's in-place mutation is embedded as explicit state
passing: each operation returns the updated table.  A Go panic (out-of-range
slice index) is embedded as `Option.none` at the outermost level.
-/

namespace Regexptable

/-- Embedding of the `CompiledRegexp` interface: a compiled matcher reports
the first match's submatch list (`none` when there is no match) and the list
of capture-group names, positionally aligned with the submatch list. -/
structure CompiledRegexp where
  FindStringSubmatch : String → Option (List String)
  SubexpNames : List String

/-- Embedding of the `RegexpEngine` interface: compile a pattern (or fail
with a backend error message) and format a named capture group in the
backend's syntax. -/
structure RegexpEngine where
  Compile : String → Except String CompiledRegexp
  FormatNamedGroup : String → String → String

/-- Embedding of `ValueAndPattern[T]`: one registry entry. -/
structure ValueAndPattern (T : Type) where
  GroupName : String
  namedPattern : String
  Value : T
  Pattern : String
  compiledPattern : Option CompiledRegexp

/-- Embedding of `RegexpTable[T]`. -/
structure RegexpTable (T : Type) where
  engine : RegexpEngine
  compiled : Option CompiledRegexp
  lookup : List (Option (ValueAndPattern T))
  maplets : List (ValueAndPattern T)
  nextGroupID : Nat
  needsRecompile : Bool
  anchorStart : Bool
  anchorEnd : Bool

/-- Embedding of `NewRegexpTableWithEngine`. -/
def NewRegexpTableWithEngine (T : Type) (engine : RegexpEngine)
    (anchorStart anchorEnd : Bool) : RegexpTable T :=
  { engine := engine
    compiled := none
    lookup := []
    maplets := []
    nextGroupID := 1
    needsRecompile := false
    anchorStart := anchorStart
    anchorEnd := anchorEnd }

/-- The synthetic group name generated for counter value `n`:
`fmt.Sprintf("__REGEXPTABLE_%d__", n)`. -/
def mkGroupName (n : Nat) : String :=
  "__REGEXPTABLE_" ++ Nat.repr n ++ "__"

/-- Embedding of `AddPattern`: assigns the next synthetic group name, wraps
the pattern via the engine's named-group formatter, appends the entry and
marks the table dirty.  The Go method always returns a nil error, embedded
as the `none` in the second component. -/
def AddPattern {T : Type} (rt : RegexpTable T) (pattern : String) (value : T) :
    RegexpTable T × Option String :=
  let groupName := mkGroupName rt.nextGroupID
  let namedPattern := rt.engine.FormatNamedGroup groupName pattern
  ({ rt with
      maplets := rt.maplets ++
        [{ GroupName := groupName
           namedPattern := namedPattern
           Value := value
           Pattern := pattern
           compiledPattern := none }]
      nextGroupID := rt.nextGroupID + 1
      needsRecompile := true }, none)

/-- Embedding of `anchorPattern`: apply `^`/`$` anchoring around a
non-capturing group according to the table's settings. -/
def anchorPattern {T : Type} (rt : RegexpTable T) (pattern : String) : String :=
  let result := if rt.anchorStart then "^(?:" ++ pattern ++ ")"
                else "(?:" ++ pattern ++ ")"
  if rt.anchorEnd then result ++ "$" else result

/-- The loop body of `validatePatterns`, recursing over the entries. -/
def validateList {T : Type} (rt : RegexpTable T) :
    List (ValueAndPattern T) → List String
  | [] => []
  | vp :: rest =>
    match rt.engine.Compile (anchorPattern rt vp.Pattern) with
    | Except.ok _ => validateList rt rest
    | Except.error e =>
      ("group " ++ vp.GroupName ++ " (pattern: " ++ vp.Pattern ++ "): " ++ e)
        :: validateList rt rest

/-- Embedding of `validatePatterns`: compile each entry's original pattern
individually (anchored) and collect a diagnostic line for each failure. -/
def validatePatterns {T : Type} (rt : RegexpTable T) : List String :=
  validateList rt rt.maplets

/-- The congruence-building loop of `Recompile`: walk the reported
`SubexpNames`; for every name bearing the reserved tag take the next maplet
(the Go code indexes `rt.maplets[n]` unchecked, so running out of maplets is
a panic, embedded as `none`), for every other name record a `none` slot. -/
def buildLookup {T : Type} (maplets : List (ValueAndPattern T)) :
    List String → Nat → Option (List (Option (ValueAndPattern T)))
  | [], _ => some []
  | name :: rest, n =>
    if "__REGEXPTABLE_".data.isPrefixOf name.data then
      match maplets[n]?, buildLookup maplets rest (n + 1) with
      | some vp, some lk => some (some vp :: lk)
      | _, _ => none
    else
      match buildLookup maplets rest n with
      | some lk => some (none :: lk)
      | none => none

/-- Embedding of `Recompile`.  With zero entries it null-s out the matcher
and succeeds.  Otherwise it joins all named patterns with `|`, anchors the
union, compiles it via the engine (on failure localizing the fault through
`validatePatterns`), and rebuilds the position-to-entry `lookup` slice.
The result is `none` only on the Go panic inside the congruence loop. -/
def Recompile {T : Type} (rt : RegexpTable T) :
    Option (RegexpTable T × Option String) :=
  if rt.maplets.length = 0 then
    some ({ rt with compiled := none, needsRecompile := false }, none)
  else
    let unionPattern := String.intercalate "|" (rt.maplets.map (·.namedPattern))
    let anchoredUnionPattern := anchorPattern rt unionPattern
    match rt.engine.Compile anchoredUnionPattern with
    | Except.error e =>
      let invalidPatterns := validatePatterns rt
      if invalidPatterns.length ≠ 0 then
        some ({ rt with compiled := none },
          some ("failed to compile union regexp due to invalid patterns:\n"
            ++ String.intercalate "\n" invalidPatterns))
      else
        some ({ rt with compiled := none },
          some ("failed to compile union regexp: " ++ e))
    | Except.ok compiled =>
      match buildLookup rt.maplets compiled.SubexpNames 0 with
      | none => none
      | some lk =>
        some ({ rt with compiled := some compiled, lookup := lk,
                        needsRecompile := false }, none)

/-- Embedding of `AddAndCheckPattern`: `AddPattern` followed immediately by
`Recompile`, surfacing the first error. -/
def AddAndCheckPattern {T : Type} (rt : RegexpTable T) (pattern : String)
    (value : T) : Option (RegexpTable T × Option String) :=
  match AddPattern rt pattern value with
  | (rt1, some e) => some (rt1, some e)
  | (rt1, none) =>
    match Recompile rt1 with
    | none => none
    | some (rt2, some e) => some (rt2, some e)
    | some (rt2, none) => some (rt2, none)

/-- Embedding of `ensureCompiled`: recompile when dirty or no matcher. -/
def ensureCompiled {T : Type} (rt : RegexpTable T) :
    Option (RegexpTable T × Option String) :=
  if rt.needsRecompile || rt.compiled.isNone then Recompile rt
  else some (rt, none)

/-- The inner loop of `Lookup`'s winner scan: starting just after the winning
position, collect the sub-matches of the following positions until the next
synthetic-group position (a non-`nil` `lookup` slot).  The Go loop guards
only `j < len(rt.lookup)` and indexes `matches[j]` unchecked, relying on the
congruence between `lookup` and `matches` forced in `Recompile`; we recurse
over the two suffixes in lockstep, which agrees with the source whenever the
two lists are congruent. -/
def takeRun {T : Type} :
    List (Option (ValueAndPattern T)) → List String → List String
  | none :: lkRest, m :: msRest => m :: takeRun lkRest msRest
  | _, _ => []

/-- The winner scan of `Lookup`: find the first position holding a registered
entry whose sub-match text is non-empty; return its value together with its
own sub-match slice (`matches[i]` followed by the run collected by
`takeRun`).  Positions at or beyond the end of `matches` fail the source's
`i < len(matches)` guard and are skipped. -/
def scanMatches {T : Type} :
    List (Option (ValueAndPattern T)) → List String → Option (T × List String)
  | [], _ => none
  | some vp :: lkRest, m :: msRest =>
    if m = "" then scanMatches lkRest msRest
    else some (vp.Value, m :: takeRun lkRest msRest)
  | none :: lkRest, _ :: msRest => scanMatches lkRest msRest
  | _ :: lkRest, [] => scanMatches lkRest []

/-- The disambiguation fallback loop of `Lookup`: test each registered
entry's original pattern individually (anchored like the table), in
registration order, using the per-entry compile cache and populating it on
demand; entries whose individual compile fails are skipped.  Returns the
updated entry list (cache writes) and the first entry's value and individual
match, if any. -/
def fallbackLoop {T : Type} (rt : RegexpTable T) (input : String) :
    List (ValueAndPattern T) →
      List (ValueAndPattern T) × Option (T × List String)
  | [] => ([], none)
  | vp :: rest =>
    let compileResult : Option CompiledRegexp :=
      match vp.compiledPattern with
      | some c => some c
      | none =>
        match rt.engine.Compile (anchorPattern rt vp.Pattern) with
        | Except.error _ => none
        | Except.ok c => some c
    match compileResult with
    | none =>
      let r := fallbackLoop rt input rest
      (vp :: r.1, r.2)
    | some individualRegexp =>
      let vp' := { vp with compiledPattern := some individualRegexp }
      match individualRegexp.FindStringSubmatch input with
      | some individualMatches => (vp' :: rest, some (vp.Value, individualMatches))
      | none =>
        let r := fallbackLoop rt input rest
        (vp' :: r.1, r.2)

/-- Embedding of `Lookup`: ensure compilation, run the combined matcher,
scan for a non-empty winner, otherwise run the per-entry fallback, otherwise
report the internal-error condition.  The outer `Option` is the Go panic
possibility inherited from `Recompile`. -/
def Lookup {T : Type} (rt : RegexpTable T) (input : String) :
    Option (RegexpTable T × Except String (T × List String)) :=
  match ensureCompiled rt with
  | none => none
  | some (rt1, some err) => some (rt1, Except.error err)
  | some (rt1, none) =>
    match rt1.compiled with
    | none => some (rt1, Except.error "no patterns configured")
    | some compiled =>
      match compiled.FindStringSubmatch input with
      | none => some (rt1, Except.error "no pattern matched")
      | some ms =>
        match scanMatches rt1.lookup ms with
        | some (v, ourMatches) => some (rt1, Except.ok (v, ourMatches))
        | none =>
          match fallbackLoop rt1 input rt1.maplets with
          | (maplets', some (v, ms)) =>
            some ({ rt1 with maplets := maplets' }, Except.ok (v, ms))
          | (maplets', none) =>
            some ({ rt1 with maplets := maplets' },
              Except.error "internal error: match found but no capture group matched")

/-- Iterated `AddPattern`, used to describe every table reachable from the
constructor by a sequence of pattern additions. -/
def addAll {T : Type} (rt : RegexpTable T) (ps : List (String × T)) :
    RegexpTable T :=
  ps.foldl (fun t pv => (AddPattern t pv.1 pv.2).1) rt

/-- Length of the leading run of `none` slots: the number of positions
before the next synthetic-group position. -/
def noneRunLen {α : Type} : List (Option α) → Nat
  | none :: rest => noneRunLen rest + 1
  | _ => 0

/-- The loop condition of `Lookup`'s winner scan at position `j`:
`valueAndPattern != nil && j < len(matches) && matches[j] != ""`. -/
def isWinner {T : Type} (lk : List (Option (ValueAndPattern T)))
    (ms : List String) (j : Nat) : Bool :=
  (lk.getD j none).isSome && decide (j < ms.length)
    && decide (ms.getD j "" ≠ "")

/-- Number of reported group names bearing the reserved
`__REGEXPTABLE_` tag. -/
def tagCount (names : List String) : Nat :=
  names.countP (fun s => "__REGEXPTABLE_".data.isPrefixOf s.data)

/-- Decimal digit list of `n`, most significant first; reference form of
core's fuelled `Nat.toDigitsCore`. -/
def myDigits (n : Nat) : List Char :=
  if n < 10 then [Nat.digitChar n]
  else myDigits (n / 10) ++ [Nat.digitChar (n % 10)]
decreasing_by exact Nat.div_lt_self (by omega) (by omega)

/-- Reads a decimal digit list back into the number it denotes. -/
def decodeDigits (cs : List Char) : Nat :=
  cs.foldl (fun a c => 10 * a + (c.toNat - 48)) 0

/-- Modelled from the spec: the matching behavior of the (external, Go
standard library) regexp backend on the anchored form of a *literal*
pattern.  `^(?:lit)$` matches exactly `lit`; `^(?:lit)` matches the strings
having `lit` as a prefix; `(?:lit)$` those having it as a suffix; `(?:lit)`
those containing it.  The backend itself is not part of this repository, so
only this documented fragment of its semantics is modelled. -/
def literalAnchoredMatches (anchorStart anchorEnd : Bool)
    (lit input : String) : Bool :=
  match anchorStart, anchorEnd with
  | true, true => input = lit
  | true, false => lit.data.isPrefixOf input.data
  | false, true => lit.data.isSuffixOf input.data
  | false, false => decide (lit.data <:+: input.data)

/-! Witness fixtures: concrete engines, matchers and tables. -/

/-- Go-style named-group formatter, as a concrete engine ingredient. -/
def goFmt (n p : String) : String := "(?P<" ++ n ++ ">" ++ p ++ ")"

/-- An engine whose compiler always fails. -/
def failEngine : RegexpEngine :=
  { Compile := fun _ => Except.error "missing closing )"
    FormatNamedGroup := goFmt }

/-- An empty table over the failing engine. -/
def emptyTbl : RegexpTable String :=
  NewRegexpTableWithEngine String failEngine false false

/-- The empty table after adding the invalid pattern `(`. -/
def rtD : RegexpTable String := (AddPattern emptyTbl "(" "v").1

/-- The diagnostic `Recompile` produces for `rtD`. -/
def eMsgC7 : String :=
  "failed to compile union regexp due to invalid patterns:\ngroup __REGEXPTABLE_1__ (pattern: (): missing closing )"

/-- Entry binding `a(b)` to `"val1"`. -/
def vp1 : ValueAndPattern String :=
  { GroupName := "__REGEXPTABLE_1__"
    namedPattern := "(?P<__REGEXPTABLE_1__>a(b))"
    Value := "val1", Pattern := "a(b)", compiledPattern := none }

/-- A combined matcher for the single entry `vp1`: on `"ab"` the synthetic
group and the inner group both participate. -/
def cm1 : CompiledRegexp :=
  { FindStringSubmatch := fun s => if s = "ab" then some ["ab", "ab", "b"] else none
    SubexpNames := ["", "__REGEXPTABLE_1__", ""] }

/-- Engine whose compiler always yields `cm1`. -/
def engOk : RegexpEngine :=
  { Compile := fun _ => Except.ok cm1, FormatNamedGroup := goFmt }

/-- A compiled, clean table holding `vp1`, congruent with `cm1`. -/
def rt1c : RegexpTable String :=
  { engine := engOk, compiled := some cm1, lookup := [none, some vp1, none]
    maplets := [vp1], nextGroupID := 2, needsRecompile := false
    anchorStart := false, anchorEnd := false }

/-- Entry binding `a*` to `"valA"`. -/
def vpA : ValueAndPattern String :=
  { GroupName := "__REGEXPTABLE_1__"
    namedPattern := "(?P<__REGEXPTABLE_1__>a*)"
    Value := "valA", Pattern := "a*", compiledPattern := none }

/-- Entry binding `b*` to `"valB"`. -/
def vpB : ValueAndPattern String :=
  { GroupName := "__REGEXPTABLE_2__"
    namedPattern := "(?P<__REGEXPTABLE_2__>b*)"
    Value := "valB", Pattern := "b*", compiledPattern := none }

/-- Individual matcher for `(?:a*)`: matches exactly the empty string here. -/
def cmA : CompiledRegexp :=
  { FindStringSubmatch := fun s => if s = "" then some [""] else none
    SubexpNames := [""] }

/-- Individual matcher for `(?:b*)`. -/
def cmB : CompiledRegexp :=
  { FindStringSubmatch := fun s => if s = "" then some [""] else none
    SubexpNames := [""] }

/-- Combined matcher for `a*|b*`: on the empty string both groups report
empty text, the ambiguous-empty-match situation. -/
def cmU : CompiledRegexp :=
  { FindStringSubmatch := fun s => if s = "" then some ["", "", ""] else none
    SubexpNames := ["", "__REGEXPTABLE_1__", "__REGEXPTABLE_2__"] }

/-- Engine dispatching the anchored individual patterns to `cmA`/`cmB`. -/
def engAB : RegexpEngine :=
  { Compile := fun p =>
      if p = "(?:a*)" then Except.ok cmA
      else if p = "(?:b*)" then Except.ok cmB
      else Except.ok cmU
    FormatNamedGroup := goFmt }

/-- A compiled, clean table holding `vpA, vpB`, congruent with `cmU`. -/
def rtAB : RegexpTable String :=
  { engine := engAB, compiled := some cmU
    lookup := [none, some vpA, some vpB]
    maplets := [vpA, vpB], nextGroupID := 3, needsRecompile := false
    anchorStart := false, anchorEnd := false }

/-- Entry binding `x?` to `"valX"`. -/
def vpX : ValueAndPattern String :=
  { GroupName := "__REGEXPTABLE_1__"
    namedPattern := "(?P<__REGEXPTABLE_1__>x?)"
    Value := "valX", Pattern := "x?", compiledPattern := none }

/-- A (misbehaving) combined matcher that reports a match on `"q"` with
empty text in every group. -/
def cmX : CompiledRegexp :=
  { FindStringSubmatch := fun s => if s = "q" then some ["q", ""] else none
    SubexpNames := ["", "__REGEXPTABLE_1__"] }

/-- An engine whose individual compiles all fail, so the fallback finds
nothing. -/
def engNoIndiv : RegexpEngine :=
  { Compile := fun _ => Except.error "nope", FormatNamedGroup := goFmt }

/-- A compiled, clean table for the internal-error path. -/
def rtX : RegexpTable String :=
  { engine := engNoIndiv, compiled := some cmX
    lookup := [none, some vpX]
    maplets := [vpX], nextGroupID := 2, needsRecompile := false
    anchorStart := false, anchorEnd := false }

/-- A unit-valued entry, for exercising the congruence-building loop. -/
def vpU : ValueAndPattern Unit :=
  { GroupName := "__REGEXPTABLE_1__"
    namedPattern := "(?P<__REGEXPTABLE_1__>u)"
    Value := (), Pattern := "u", compiledPattern := none }

end Regexptable

/-! ## Theorems -/

namespace Regexptable

theorem anchorPattern_congr {T U : Type} (rt1 : RegexpTable T)
    (rt2 : RegexpTable U) (hs : rt1.anchorStart = rt2.anchorStart)
    (he : rt1.anchorEnd = rt2.anchorEnd) (p : String) :
    anchorPattern rt1 p = anchorPattern rt2 p := by
  unfold anchorPattern
  rw [hs, he]

theorem validateList_congr {T : Type} (rt1 rt2 : RegexpTable T)
    (heng : rt1.engine = rt2.engine) (hs : rt1.anchorStart = rt2.anchorStart)
    (he : rt1.anchorEnd = rt2.anchorEnd) :
    ∀ l, validateList rt1 l = validateList rt2 l := by
  intro l
  induction l with
  | nil => rfl
  | cons vp rest ih =>
    unfold validateList
    rw [heng, anchorPattern_congr rt1 rt2 hs he, ih]

theorem validateList_mem {T : Type} (rt : RegexpTable T)
    (l : List (ValueAndPattern T)) (vp : ValueAndPattern T) (hvp : vp ∈ l)
    (err : String)
    (herr : rt.engine.Compile (anchorPattern rt vp.Pattern) = Except.error err) :
    ("group " ++ vp.GroupName ++ " (pattern: " ++ vp.Pattern ++ "): " ++ err)
      ∈ validateList rt l := by
  induction l with
  | nil => cases hvp
  | cons hd rest ih =>
    rcases List.mem_cons.mp hvp with h | h
    · subst h
      unfold validateList
      rw [herr]
      exact List.mem_cons_self _ _
    · unfold validateList
      cases rt.engine.Compile (anchorPattern rt hd.Pattern) with
      | ok _ => exact ih h
      | error _ => exact List.mem_cons_of_mem _ (ih h)

/-- C4: `anchorPattern` prefixes `^` immediately before the non-capturing
group exactly when `anchorStart` holds and appends `$` immediately after the
group's close exactly when `anchorEnd` holds, and on the literal pattern
`"hello"` the modelled matching semantics of the anchored forms realize the
spec's anchoring matrix. -/
theorem C4_anchoring (T : Type) (rt : RegexpTable T) (p : String) :
    ((rt.anchorStart = true → rt.anchorEnd = false →
        anchorPattern rt p = "^(?:" ++ p ++ ")")
      ∧ (rt.anchorStart = false → rt.anchorEnd = false →
        anchorPattern rt p = "(?:" ++ p ++ ")")
      ∧ (rt.anchorStart = true → rt.anchorEnd = true →
        anchorPattern rt p = "^(?:" ++ p ++ ")" ++ "$")
      ∧ (rt.anchorStart = false → rt.anchorEnd = true →
        anchorPattern rt p = "(?:" ++ p ++ ")" ++ "$"))
    ∧ (literalAnchoredMatches true false "hello" "hello world" = true
      ∧ literalAnchoredMatches true false "hello" "hello" = true
      ∧ literalAnchoredMatches true false "hello" "say hello" = false
      ∧ literalAnchoredMatches false false "hello" "hello" = true
      ∧ literalAnchoredMatches false false "hello" "hello world" = true
      ∧ literalAnchoredMatches false false "hello" "say hello" = true
      ∧ literalAnchoredMatches false false "hello" "say hello world" = true
      ∧ literalAnchoredMatches true true "hello" "hello" = true
      ∧ literalAnchoredMatches true true "hello" "hello world" = false
      ∧ literalAnchoredMatches true true "hello" "say hello" = false) := by
  constructor
  · refine ⟨fun h1 h2 => ?_, fun h1 h2 => ?_, fun h1 h2 => ?_, fun h1 h2 => ?_⟩ <;>
      (unfold anchorPattern; rw [h1, h2]; rfl)
  · refine ⟨?_, ?_, ?_, ?_, ?_, ?_, ?_, ?_, ?_, ?_⟩ <;> decide

theorem C4_anchoring_witness :
    anchorPattern emptyTbl "hello" = "(?:hello)" :=
  ((C4_anchoring String emptyTbl "hello").1.2.1) rfl rfl

/-- C3: with zero registered entries `Recompile` succeeds and leaves a null
compiled matcher; `Lookup` against the resulting table fails with the
`no patterns configured` condition, which is a different condition from the
`no pattern matched` one. -/
theorem C3_empty_table (T : Type) (rt : RegexpTable T) (h : rt.maplets = []) :
    Recompile rt = some ({ rt with compiled := none, needsRecompile := false }, none)
    ∧ (∀ input, Lookup { rt with compiled := none, needsRecompile := false } input
        = some ({ rt with compiled := none, needsRecompile := false },
            Except.error "no patterns configured"))
    ∧ "no patterns configured" ≠ "no pattern matched" := by
  refine ⟨?_, ?_, by decide⟩
  · unfold Recompile
    rw [h]
    rfl
  · intro input
    unfold Lookup ensureCompiled Recompile
    rw [h]
    rfl

theorem C3_empty_table_witness :
    Lookup emptyTbl "anything"
      = some (emptyTbl, Except.error "no patterns configured") :=
  (C3_empty_table String emptyTbl rfl).2.1 "anything"

/-- C7: `AddPattern` never fails: it appends the entry (with the pattern
wrapped through the engine's named-group formatter) and marks the table
dirty; whenever the forced compilation of the resulting table fails,
`AddAndCheckPattern` fails at add-time with that same error, and a `Lookup`
on the deferred-validation table surfaces that same error. -/
theorem C7_deferred_validation (T : Type) (rt : RegexpTable T) (p : String)
    (v : T) :
    (AddPattern rt p v).2 = none
    ∧ (AddPattern rt p v).1.maplets = rt.maplets ++
        [{ GroupName := mkGroupName rt.nextGroupID
           namedPattern := rt.engine.FormatNamedGroup (mkGroupName rt.nextGroupID) p
           Value := v
           Pattern := p
           compiledPattern := none }]
    ∧ (AddPattern rt p v).1.needsRecompile = true
    ∧ (∀ rt2 e, Recompile (AddPattern rt p v).1 = some (rt2, some e) →
        AddAndCheckPattern rt p v = some (rt2, some e)
        ∧ ∀ input, Lookup (AddPattern rt p v).1 input
            = some (rt2, Except.error e)) := by
  refine ⟨rfl, rfl, rfl, ?_⟩
  intro rt2 e h
  constructor
  · unfold AddAndCheckPattern
    rw [show AddPattern rt p v = ((AddPattern rt p v).1, none) from rfl]
    simp only [h]
  · intro input
    unfold Lookup ensureCompiled
    rw [show (AddPattern rt p v).1.needsRecompile = true from rfl]
    rw [show (true || ((AddPattern rt p v).1.compiled).isNone) = true from rfl]
    simp only [if_true, h]

theorem C7_deferred_validation_witness :
    AddAndCheckPattern emptyTbl "(" "v"
        = some ({ rtD with compiled := none }, some eMsgC7)
    ∧ Lookup rtD "x"
        = some ({ rtD with compiled := none }, Except.error eMsgC7) := by
  have h := (C7_deferred_validation String emptyTbl "(" "v").2.2.2
      { rtD with compiled := none } eMsgC7 (by rfl)
  exact ⟨h.1, h.2 "x"⟩

/-- C5: when compiling the union pattern fails, `Recompile` localizes the
fault by validating entries individually: if any entries fail individually
the returned error is the diagnostic joining one line per offending entry
(and every offending entry's group name and source pattern appear in the
list); if none fail individually the raw combined-compile error is
surfaced, wrapped, instead. -/
theorem C5_compile_error_diagnostics (T : Type) (rt : RegexpTable T)
    (e : String) (hne : rt.maplets ≠ [])
    (hcomp : rt.engine.Compile (anchorPattern rt
        (String.intercalate "|" (rt.maplets.map (·.namedPattern))))
      = Except.error e) :
    ((validatePatterns rt ≠ []) →
      Recompile rt = some ({ rt with compiled := none },
        some ("failed to compile union regexp due to invalid patterns:\n"
          ++ String.intercalate "\n" (validatePatterns rt))))
    ∧ (validatePatterns rt = [] →
      Recompile rt = some ({ rt with compiled := none },
        some ("failed to compile union regexp: " ++ e)))
    ∧ (∀ vp ∈ rt.maplets, ∀ err,
        rt.engine.Compile (anchorPattern rt vp.Pattern) = Except.error err →
        ("group " ++ vp.GroupName ++ " (pattern: " ++ vp.Pattern ++ "): " ++ err)
          ∈ validatePatterns rt) := by
  have hlen : ¬ (rt.maplets.length = 0) := by
    simpa [List.length_eq_zero] using hne
  refine ⟨?_, ?_, ?_⟩
  · intro hval
    have hvlen : (validatePatterns rt).length ≠ 0 := by
      simpa [List.length_eq_zero] using hval
    unfold Recompile
    rw [if_neg hlen]
    simp only [hcomp]
    rw [if_pos hvlen]
  · intro hval
    have hvlen : ¬ ((validatePatterns rt).length ≠ 0) := by
      simp [hval]
    unfold Recompile
    rw [if_neg hlen]
    simp only [hcomp]
    rw [if_neg hvlen]
  · intro vp hvp err herr
    exact validateList_mem rt rt.maplets vp hvp err herr

theorem C5_compile_error_diagnostics_witness :
    Recompile rtD = some ({ rtD with compiled := none }, some eMsgC7) := by
  have h := (C5_compile_error_diagnostics String rtD "missing closing )"
      (by exact List.cons_ne_nil _ _) rfl).1 (by exact List.cons_ne_nil _ _)
  exact h

/-- C10: whenever `Recompile` returns an error the resulting table holds no
compiled matcher, the dirty flag is left untouched (so it stays set when it
was set), and every subsequent `Lookup` re-attempts compilation and returns
that same compile error rather than matching against a stale matcher. -/
theorem C10_recompile_error (T : Type) (rt rt1 : RegexpTable T) (e : String)
    (h : Recompile rt = some (rt1, some e)) :
    rt1.compiled = none ∧ rt1.needsRecompile = rt.needsRecompile
    ∧ ∀ input, Lookup rt1 input = some (rt1, Except.error e) := by
  unfold Recompile at h
  by_cases hm : rt.maplets.length = 0
  · rw [if_pos hm] at h
    simp at h
  · rw [if_neg hm] at h
    cases hcomp : rt.engine.Compile (anchorPattern rt
        (String.intercalate "|" (rt.maplets.map (·.namedPattern)))) with
    | ok c =>
      simp only [hcomp] at h
      cases hb : buildLookup rt.maplets c.SubexpNames 0 with
      | none => rw [hb] at h; simp at h
      | some lk => rw [hb] at h; simp at h
    | error e' =>
      simp only [hcomp] at h
      by_cases hval : (validatePatterns rt).length ≠ 0
      · rw [if_pos hval] at h
        rw [Option.some.injEq, Prod.mk.injEq, Option.some.injEq] at h
        obtain ⟨hrt1, he⟩ := h
        subst hrt1
        refine ⟨rfl, rfl, ?_⟩
        intro input
        have hre : Recompile { rt with compiled := none }
            = some ({ rt with compiled := none }, some e) := by
          unfold Recompile
          rw [if_neg hm]
          simp only [anchorPattern_congr { rt with compiled := none } rt rfl rfl]
          simp only [hcomp]
          have hv2 : validatePatterns { rt with compiled := none }
              = validatePatterns rt :=
            validateList_congr { rt with compiled := none } rt rfl rfl rfl rt.maplets
          rw [hv2, if_pos hval, ← he]
        unfold Lookup ensureCompiled
        simp only [Option.isNone, Bool.or_true, if_true, hre]
      · rw [if_neg hval] at h
        rw [Option.some.injEq, Prod.mk.injEq, Option.some.injEq] at h
        obtain ⟨hrt1, he⟩ := h
        subst hrt1
        refine ⟨rfl, rfl, ?_⟩
        intro input
        have hre : Recompile { rt with compiled := none }
            = some ({ rt with compiled := none }, some e) := by
          unfold Recompile
          rw [if_neg hm]
          simp only [anchorPattern_congr { rt with compiled := none } rt rfl rfl]
          simp only [hcomp]
          have hv2 : validatePatterns { rt with compiled := none }
              = validatePatterns rt :=
            validateList_congr { rt with compiled := none } rt rfl rfl rfl rt.maplets
          rw [hv2, if_neg hval, ← he]
        unfold Lookup ensureCompiled
        simp only [Option.isNone, Bool.or_true, if_true, hre]

theorem C10_recompile_error_witness :
    ({ rtD with compiled := none } : RegexpTable String).compiled = none
    ∧ Lookup { rtD with compiled := none } "y"
        = some ({ rtD with compiled := none }, Except.error eMsgC7) := by
  have h := C10_recompile_error String rtD { rtD with compiled := none }
      eMsgC7 (by rfl)
  exact ⟨h.1, h.2.2 "y"⟩

theorem takeRun_eq_take {T : Type} :
    ∀ (lk : List (Option (ValueAndPattern T))) (ms : List String),
    takeRun lk ms = ms.take (noneRunLen lk) := by
  intro lk
  induction lk with
  | nil => intro ms; rfl
  | cons o rest ih =>
    intro ms
    cases o with
    | some vp => rfl
    | none =>
      cases ms with
      | nil => rfl
      | cons m mrest => simp [takeRun, noneRunLen, ih]

theorem isWinner_nil_ms {T : Type} (lk : List (Option (ValueAndPattern T)))
    (j : Nat) : isWinner lk [] j = false := by
  simp [isWinner]

theorem isWinner_cons_succ {T : Type} (o : Option (ValueAndPattern T))
    (lk : List (Option (ValueAndPattern T))) (m : String) (ms : List String)
    (j : Nat) : isWinner (o :: lk) (m :: ms) (j + 1) = isWinner lk ms j := by
  simp [isWinner, Nat.succ_lt_succ_iff]

theorem isWinner_ge_length {T : Type} (lk : List (Option (ValueAndPattern T)))
    (ms : List String) (j : Nat) (h : lk.length ≤ j) :
    isWinner lk ms j = false := by
  simp [isWinner, List.getElem?_eq_none h]

theorem scanMatches_eq_none {T : Type} :
    ∀ (lk : List (Option (ValueAndPattern T))) (ms : List String),
    (∀ j, isWinner lk ms j = false) → scanMatches lk ms = none := by
  intro lk
  induction lk with
  | nil => intro ms _; rfl
  | cons o rest ih =>
    intro ms h
    cases ms with
    | nil =>
      cases o <;>
        exact ih [] (fun j => isWinner_nil_ms rest j)
    | cons m mrest =>
      cases o with
      | none =>
        show scanMatches rest mrest = none
        exact ih mrest (fun j => by
          have := h (j + 1)
          rwa [isWinner_cons_succ] at this)
      | some vp =>
        have h0 := h 0
        simp [isWinner] at h0
        simp only [scanMatches]
        rw [if_pos h0]
        exact ih mrest (fun j => by
          have := h (j + 1)
          rwa [isWinner_cons_succ] at this)

theorem scanMatches_eq_some {T : Type} :
    ∀ (lk : List (Option (ValueAndPattern T))) (ms : List String) (i : Nat)
      (vp : ValueAndPattern T) (m : String),
    ms.length = lk.length →
    lk[i]? = some (some vp) →
    ms[i]? = some m → m ≠ "" →
    (∀ j, j < i → isWinner lk ms j = false) →
    scanMatches lk ms
      = some (vp.Value,
          m :: (ms.drop (i + 1)).take (noneRunLen (lk.drop (i + 1)))) := by
  intro lk
  induction lk with
  | nil => intro ms i vp m _ hvp _ _ _; simp at hvp
  | cons o rest ih =>
    intro ms i vp m hlen hvp hm hne hfirst
    cases ms with
    | nil => simp at hlen
    | cons m0 mrest =>
      cases i with
      | zero =>
        simp only [List.getElem?_cons_zero, Option.some.injEq] at hvp hm
        subst hvp
        subst hm
        simp only [scanMatches]
        rw [if_neg hne, takeRun_eq_take]
        simp
      | succ j =>
        have hlen' : mrest.length = rest.length := by simpa using hlen
        have hvp' : rest[j]? = some (some vp) := by simpa using hvp
        have hm' : mrest[j]? = some m := by simpa using hm
        have hfirst' : ∀ k, k < j → isWinner rest mrest k = false := fun k hk => by
          have := hfirst (k + 1) (Nat.succ_lt_succ hk)
          rwa [isWinner_cons_succ] at this
        have tail := ih mrest j vp m hlen' hvp' hm' hne hfirst'
        cases o with
        | none =>
          show scanMatches rest mrest = _
          rw [tail]
          simp
        | some vp0 =>
          have h0 := hfirst 0 (Nat.succ_pos j)
          simp [isWinner] at h0
          simp only [scanMatches]
          rw [if_pos h0, tail]
          simp

theorem Lookup_compiled_step {T : Type} (rt : RegexpTable T)
    (c : CompiledRegexp) (input : String)
    (hnr : rt.needsRecompile = false) (hc : rt.compiled = some c) :
    Lookup rt input =
      match c.FindStringSubmatch input with
      | none => some (rt, Except.error "no pattern matched")
      | some ms =>
        match scanMatches rt.lookup ms with
        | some (v, ourMatches) => some (rt, Except.ok (v, ourMatches))
        | none =>
          match fallbackLoop rt input rt.maplets with
          | (maplets', some (v, ms2)) =>
            some ({ rt with maplets := maplets' }, Except.ok (v, ms2))
          | (maplets', none) =>
            some ({ rt with maplets := maplets' },
              Except.error "internal error: match found but no capture group matched") := by
  cases rt with
  | mk eng cmp lkup mp gid nr aS aE =>
    dsimp only at hnr hc ⊢
    subst hnr
    subst hc
    rfl

/-- C1: when the combined matcher of a compiled table finds a match, `Lookup`
scans the positions in order and returns the value of the first position
holding a registered entry with non-empty sub-match text, paired with a
submatch list whose element 0 is that position's matched text followed by
every subsequent sub-match position up to (excluding) the next
synthetic-group position. -/
theorem C1_first_nonempty_winner {T : Type} (rt : RegexpTable T)
    (c : CompiledRegexp) (input : String) (ms : List String) (i : Nat)
    (vp : ValueAndPattern T) (m : String)
    (hnr : rt.needsRecompile = false) (hc : rt.compiled = some c)
    (hf : c.FindStringSubmatch input = some ms)
    (hlen : ms.length = rt.lookup.length)
    (hvp : rt.lookup[i]? = some (some vp))
    (hm : ms[i]? = some m) (hne : m ≠ "")
    (hfirst : ∀ j, j < i → isWinner rt.lookup ms j = false) :
    Lookup rt input = some (rt, Except.ok (vp.Value,
      m :: (ms.drop (i + 1)).take (noneRunLen (rt.lookup.drop (i + 1))))) := by
  have hscan := scanMatches_eq_some rt.lookup ms i vp m hlen hvp hm hne hfirst
  rw [Lookup_compiled_step rt c input hnr hc]
  simp only [hf, hscan]

theorem C1_first_nonempty_winner_witness :
    Lookup rt1c "ab" = some (rt1c, Except.ok ("val1", ["ab", "b"])) := by
  have h := C1_first_nonempty_winner rt1c cm1 "ab" ["ab", "ab", "b"] 1 vp1 "ab"
    rfl rfl rfl rfl rfl rfl (by decide) (by decide)
  exact h

theorem fallbackLoop_eq_some {T : Type} (rt : RegexpTable T) (input : String) :
    ∀ (l : List (ValueAndPattern T)) (k : Nat) (vp : ValueAndPattern T)
      (c : CompiledRegexp) (ims : List String),
    (∀ vp' ∈ l, ∀ cc, vp'.compiledPattern = some cc →
        rt.engine.Compile (anchorPattern rt vp'.Pattern) = Except.ok cc) →
    l[k]? = some vp →
    rt.engine.Compile (anchorPattern rt vp.Pattern) = Except.ok c →
    c.FindStringSubmatch input = some ims →
    (∀ j, j < k → ∀ vpj, l[j]? = some vpj →
        ∀ cj, rt.engine.Compile (anchorPattern rt vpj.Pattern) = Except.ok cj →
          cj.FindStringSubmatch input = none) →
    (fallbackLoop rt input l).2 = some (vp.Value, ims) := by
  intro l
  induction l with
  | nil => intro k vp c ims _ hk _ _ _; simp at hk
  | cons vp0 rest ih =>
    intro k vp c ims hcoh hk hck hims hfirst
    have hcoh' : ∀ vp' ∈ rest, ∀ cc, vp'.compiledPattern = some cc →
        rt.engine.Compile (anchorPattern rt vp'.Pattern) = Except.ok cc :=
      fun vp' hv' => hcoh vp' (List.mem_cons_of_mem _ hv')
    cases k with
    | zero =>
      simp only [List.getElem?_cons_zero, Option.some.injEq] at hk
      subst hk
      cases hcache0 : vp0.compiledPattern with
      | some c0 =>
        have := hcoh vp0 (List.mem_cons_self _ _) c0 hcache0
        rw [hck] at this
        injection this with hcc
        subst hcc
        simp only [fallbackLoop, hcache0, hims]
      | none =>
        simp only [fallbackLoop, hcache0, hck, hims]
    | succ j =>
      have hk' : rest[j]? = some vp := by simpa using hk
      have hfirst' : ∀ i, i < j → ∀ vpj, rest[i]? = some vpj →
          ∀ cj, rt.engine.Compile (anchorPattern rt vpj.Pattern) = Except.ok cj →
            cj.FindStringSubmatch input = none := fun i hi vpj hvpj =>
        hfirst (i + 1) (Nat.succ_lt_succ hi) vpj (by simpa using hvpj)
      have tail := ih j vp c ims hcoh' hk' hck hims hfirst'
      cases hcache0 : vp0.compiledPattern with
      | some c0 =>
        have hc0 := hcoh vp0 (List.mem_cons_self _ _) c0 hcache0
        have hnone := hfirst 0 (Nat.succ_pos j) vp0 (by simp) c0 hc0
        simp only [fallbackLoop, hcache0, hnone, tail]
      | none =>
        cases hcmp : rt.engine.Compile (anchorPattern rt vp0.Pattern) with
        | error e0 =>
          simp only [fallbackLoop, hcache0, hcmp, tail]
        | ok c0 =>
          have hnone := hfirst 0 (Nat.succ_pos j) vp0 (by simp) c0 hcmp
          simp only [fallbackLoop, hcache0, hcmp, hnone, tail]

theorem fallbackLoop_eq_none {T : Type} (rt : RegexpTable T) (input : String) :
    ∀ (l : List (ValueAndPattern T)),
    (∀ vp' ∈ l, ∀ cc, vp'.compiledPattern = some cc →
        rt.engine.Compile (anchorPattern rt vp'.Pattern) = Except.ok cc) →
    (∀ vp ∈ l, ∀ c, rt.engine.Compile (anchorPattern rt vp.Pattern) = Except.ok c →
        c.FindStringSubmatch input = none) →
    (fallbackLoop rt input l).2 = none := by
  intro l
  induction l with
  | nil => intro _ _; rfl
  | cons vp0 rest ih =>
    intro hcoh hno
    have tail := ih (fun vp' hv' => hcoh vp' (List.mem_cons_of_mem _ hv'))
      (fun vp hv => hno vp (List.mem_cons_of_mem _ hv))
    cases hcache0 : vp0.compiledPattern with
    | some c0 =>
      have hc0 := hcoh vp0 (List.mem_cons_self _ _) c0 hcache0
      have hnone := hno vp0 (List.mem_cons_self _ _) c0 hc0
      simp only [fallbackLoop, hcache0, hnone, tail]
    | none =>
      cases hcmp : rt.engine.Compile (anchorPattern rt vp0.Pattern) with
      | error e0 =>
        simp only [fallbackLoop, hcache0, hcmp, tail]
      | ok c0 =>
        have hnone := hno vp0 (List.mem_cons_self _ _) c0 hcmp
        simp only [fallbackLoop, hcache0, hcmp, hnone, tail]

/-- C2: when the combined matcher reports a match but the in-order scan
finds no registered entry with non-empty sub-match text, `Lookup` tests each
registered entry's original pattern individually, anchored like the table,
in registration order; the first entry whose individual pattern matches
determines the returned value, and that individual pattern's own match (not
the combined submatches) is returned. -/
theorem C2_exhaustive_fallback {T : Type} (rt : RegexpTable T)
    (c : CompiledRegexp) (input : String) (ms : List String) (k : Nat)
    (vp : ValueAndPattern T) (ck : CompiledRegexp) (ims : List String)
    (hnr : rt.needsRecompile = false) (hc : rt.compiled = some c)
    (hf : c.FindStringSubmatch input = some ms)
    (hnowin : ∀ j, isWinner rt.lookup ms j = false)
    (hcoh : ∀ vp' ∈ rt.maplets, ∀ cc, vp'.compiledPattern = some cc →
        rt.engine.Compile (anchorPattern rt vp'.Pattern) = Except.ok cc)
    (hk : rt.maplets[k]? = some vp)
    (hck : rt.engine.Compile (anchorPattern rt vp.Pattern) = Except.ok ck)
    (hims : ck.FindStringSubmatch input = some ims)
    (hfirst : ∀ j, j < k → ∀ vpj, rt.maplets[j]? = some vpj →
        ∀ cj, rt.engine.Compile (anchorPattern rt vpj.Pattern) = Except.ok cj →
          cj.FindStringSubmatch input = none) :
    ∃ rt', Lookup rt input = some (rt', Except.ok (vp.Value, ims)) := by
  have hscan := scanMatches_eq_none rt.lookup ms hnowin
  have hfb := fallbackLoop_eq_some rt input rt.maplets k vp ck ims
    hcoh hk hck hims hfirst
  rw [Lookup_compiled_step rt c input hnr hc]
  simp only [hf, hscan]
  rw [show fallbackLoop rt input rt.maplets
      = ((fallbackLoop rt input rt.maplets).1, some (vp.Value, ims)) from by
    rw [← hfb]]
  exact ⟨_, rfl⟩

theorem C2_exhaustive_fallback_witness :
    ∃ rt', Lookup rtAB "" = some (rt', Except.ok ("valA", [""])) := by
  have hnowin : ∀ j, isWinner rtAB.lookup ["", "", ""] j = false := by
    intro j
    by_cases hj : j < 3
    · revert j
      decide
    · exact isWinner_ge_length _ _ j (by simpa using Nat.le_of_not_lt hj)
  have hcoh : ∀ vp' ∈ rtAB.maplets, ∀ cc, vp'.compiledPattern = some cc →
      rtAB.engine.Compile (anchorPattern rtAB vp'.Pattern) = Except.ok cc := by
    intro vp' hv' cc hcc
    rcases List.mem_cons.mp hv' with h | h
    · subst h; simp [vpA] at hcc
    · rcases List.mem_cons.mp h with h2 | h2
      · subst h2; simp [vpB] at hcc
      · cases h2
  exact C2_exhaustive_fallback rtAB cmU "" ["", "", ""] 0 vpA cmA [""]
    rfl rfl rfl hnowin hcoh rfl rfl rfl
    (fun j hj => absurd hj (Nat.not_lt_zero j))

/-- C8: when the combined matcher reported a match but neither the
non-empty-submatch scan nor the per-entry fallback attributes any entry,
`Lookup` returns the internal-error condition, a condition distinct from
both `no pattern matched` and `no patterns configured`. -/
theorem C8_internal_error {T : Type} (rt : RegexpTable T)
    (c : CompiledRegexp) (input : String) (ms : List String)
    (hnr : rt.needsRecompile = false) (hc : rt.compiled = some c)
    (hf : c.FindStringSubmatch input = some ms)
    (hnowin : ∀ j, isWinner rt.lookup ms j = false)
    (hcoh : ∀ vp' ∈ rt.maplets, ∀ cc, vp'.compiledPattern = some cc →
        rt.engine.Compile (anchorPattern rt vp'.Pattern) = Except.ok cc)
    (hno : ∀ vp ∈ rt.maplets, ∀ cc,
        rt.engine.Compile (anchorPattern rt vp.Pattern) = Except.ok cc →
        cc.FindStringSubmatch input = none) :
    (∃ rt', Lookup rt input = some (rt',
        Except.error "internal error: match found but no capture group matched"))
    ∧ "internal error: match found but no capture group matched"
        ≠ "no pattern matched"
    ∧ "internal error: match found but no capture group matched"
        ≠ "no patterns configured" := by
  refine ⟨?_, by decide, by decide⟩
  have hscan := scanMatches_eq_none rt.lookup ms hnowin
  have hfb := fallbackLoop_eq_none rt input rt.maplets hcoh hno
  rw [Lookup_compiled_step rt c input hnr hc]
  simp only [hf, hscan]
  rw [show fallbackLoop rt input rt.maplets
      = ((fallbackLoop rt input rt.maplets).1, none) from by rw [← hfb]]
  exact ⟨_, rfl⟩

theorem C8_internal_error_witness :
    ∃ rt', Lookup rtX "q" = some (rt',
      Except.error "internal error: match found but no capture group matched") := by
  have hnowin : ∀ j, isWinner rtX.lookup ["q", ""] j = false := by
    intro j
    by_cases hj : j < 2
    · revert j
      decide
    · exact isWinner_ge_length _ _ j (by simpa using Nat.le_of_not_lt hj)
  have hcoh : ∀ vp' ∈ rtX.maplets, ∀ cc, vp'.compiledPattern = some cc →
      rtX.engine.Compile (anchorPattern rtX vp'.Pattern) = Except.ok cc := by
    intro vp' hv' cc hcc
    rcases List.mem_cons.mp hv' with h | h
    · subst h; simp [vpX] at hcc
    · cases h
  have hno : ∀ vp ∈ rtX.maplets, ∀ cc,
      rtX.engine.Compile (anchorPattern rtX vp.Pattern) = Except.ok cc →
      cc.FindStringSubmatch "q" = none := by
    intro vp hv cc hcc
    rcases List.mem_cons.mp hv with h | h
    · subst h
      simp [rtX, engNoIndiv] at hcc
    · cases h
  exact (C8_internal_error rtX cmX "q" ["q", ""] rfl rfl rfl hnowin hcoh hno).1

theorem buildLookup_spec {T : Type} :
    ∀ (names : List String) (maplets : List (ValueAndPattern T)) (n : Nat),
    n + tagCount names ≤ maplets.length →
    ∃ lk, buildLookup maplets names n = some lk
      ∧ lk.length = names.length
      ∧ lk.filterMap id = (maplets.drop n).take (tagCount names) := by
  intro names
  induction names with
  | nil =>
    intro maplets n h
    exact ⟨[], rfl, rfl, by simp [tagCount]⟩
  | cons name rest ih =>
    intro maplets n h
    by_cases htag : ("__REGEXPTABLE_".data.isPrefixOf name.data) = true
    · have htc : tagCount (name :: rest) = tagCount rest + 1 := by
        simp [tagCount, List.countP_cons, htag]
      rw [htc] at h
      have hn : n < maplets.length := by omega
      obtain ⟨lk, hbl, hlen, hfm⟩ := ih maplets (n + 1) (by omega)
      refine ⟨some maplets[n] :: lk, ?_, ?_, ?_⟩
      · simp only [buildLookup, htag, if_true]
        rw [List.getElem?_eq_getElem hn, hbl]
      · simp [hlen]
      · simp only [List.filterMap_cons, id_eq]
        rw [hfm, htc]
        rw [show List.drop n maplets = maplets[n] :: List.drop (n + 1) maplets from
          List.drop_eq_getElem_cons hn]
        rw [List.take_succ_cons]
    · have htc : tagCount (name :: rest) = tagCount rest := by
        simp [tagCount, List.countP_cons, htag]
      rw [htc] at h
      obtain ⟨lk, hbl, hlen, hfm⟩ := ih maplets n h
      refine ⟨none :: lk, ?_, ?_, ?_⟩
      · simp only [buildLookup, htag, Bool.false_eq_true, if_false]
        rw [hbl]
      · simp [hlen]
      · simp only [List.filterMap_cons, id_eq]
        rw [hfm, htc]

/-- C9: whenever the reported group-name list carries at most as many
reserved-tag names as there are registered entries — which is what the
`__REGEXPTABLE_` namespace reservation guarantees — the congruence-building
loop of `Recompile` never indexes past the end of the entry sequence, and it
pairs the k-th tagged name, in reported order, with the k-th registered
entry; without that precondition the unchecked index runs past the end (the
embedded loop reports the panic as `none`). -/
theorem C9_congruence_loop :
    (∀ (T : Type) (maplets : List (ValueAndPattern T)) (names : List String),
      tagCount names ≤ maplets.length →
      ∃ lk, buildLookup maplets names 0 = some lk
        ∧ lk.length = names.length
        ∧ lk.filterMap id = maplets.take (tagCount names))
    ∧ buildLookup ([] : List (ValueAndPattern Unit)) ["__REGEXPTABLE_1__"] 0
        = none := by
  constructor
  · intro T maplets names h
    have hs := buildLookup_spec names maplets 0 (by simpa using h)
    simpa using hs
  · rfl

theorem C9_congruence_loop_witness :
    tagCount ["", "__REGEXPTABLE_1__", ""] ≤ [vpU].length
    ∧ ∃ lk, buildLookup [vpU] ["", "__REGEXPTABLE_1__", ""] 0 = some lk
        ∧ lk.length = (["", "__REGEXPTABLE_1__", ""] : List String).length
        ∧ lk.filterMap id = [vpU].take (tagCount ["", "__REGEXPTABLE_1__", ""]) := by
  refine ⟨by decide, ?_⟩
  exact C9_congruence_loop.1 Unit [vpU] ["", "__REGEXPTABLE_1__", ""] (by decide)

theorem toDigitsCore_eq_myDigits :
    ∀ (fuel n : Nat) (ds : List Char), n < fuel →
    Nat.toDigitsCore 10 fuel n ds = myDigits n ++ ds := by
  intro fuel
  induction fuel with
  | zero => intro n ds h; exact absurd h (Nat.not_lt_zero n)
  | succ f ih =>
    intro n ds h
    by_cases h10 : n / 10 = 0
    · have hn : n < 10 := (Nat.div_eq_zero_iff (by omega)).mp h10
      have hmod : n % 10 = n := Nat.mod_eq_of_lt hn
      simp only [Nat.toDigitsCore, h10, if_true, hmod]
      rw [myDigits, if_pos hn]
      rfl
    · have hn10 : ¬ (n < 10) := fun hlt => h10 (Nat.div_eq_of_lt hlt)
      have hlt : n / 10 < f := by
        have h1 : n / 10 < n := Nat.div_lt_self (by omega) (by omega)
        omega
      simp only [Nat.toDigitsCore, h10, if_false]
      rw [ih (n / 10) ((n % 10).digitChar :: ds) hlt]
      conv_rhs => rw [myDigits]
      rw [if_neg hn10]
      simp

theorem digitChar_sub : ∀ n, n < 10 → (Nat.digitChar n).toNat - 48 = n := by
  decide

theorem decodeDigits_append (cs : List Char) (c : Char) :
    decodeDigits (cs ++ [c]) = 10 * decodeDigits cs + (c.toNat - 48) := by
  simp [decodeDigits, List.foldl_append]

theorem decodeDigits_myDigits : ∀ n, decodeDigits (myDigits n) = n := by
  intro n
  induction n using Nat.strong_induction_on with
  | _ n ih =>
    by_cases h : n < 10
    · rw [myDigits, if_pos h]
      simp [decodeDigits]
      exact digitChar_sub n h
    · rw [myDigits, if_neg h]
      rw [decodeDigits_append]
      rw [ih (n / 10) (Nat.div_lt_self (by omega) (by omega))]
      rw [digitChar_sub (n % 10) (Nat.mod_lt n (by omega))]
      omega

theorem repr_eq_myDigits (n : Nat) : Nat.repr n = (myDigits n).asString := by
  show (Nat.toDigits 10 n).asString = (myDigits n).asString
  rw [show Nat.toDigits 10 n = Nat.toDigitsCore 10 (n + 1) n [] from rfl]
  rw [toDigitsCore_eq_myDigits (n + 1) n [] (Nat.lt_succ_self n)]
  simp

theorem repr_injective : Function.Injective Nat.repr := by
  intro a b h
  rw [repr_eq_myDigits, repr_eq_myDigits] at h
  have hd : myDigits a = myDigits b := by
    have hdata := congrArg String.data h
    simpa [List.asString] using hdata
  have hdec := congrArg decodeDigits hd
  rwa [decodeDigits_myDigits, decodeDigits_myDigits] at hdec

theorem mkGroupName_injective : Function.Injective mkGroupName := by
  intro a b h
  apply repr_injective
  unfold mkGroupName at h
  have hd := congrArg String.data h
  simp only [String.data_append] at hd
  have h1 := List.append_cancel_right hd
  have h2 := List.append_cancel_left h1
  exact String.ext h2

theorem addAll_names :
    ∀ (T : Type) (ps : List (String × T)) (rt : RegexpTable T),
    (addAll rt ps).maplets.map (fun vp => vp.GroupName)
      = rt.maplets.map (fun vp => vp.GroupName)
        ++ (List.range ps.length).map (fun i => mkGroupName (rt.nextGroupID + i)) := by
  intro T ps
  induction ps with
  | nil => intro rt; simp [addAll]
  | cons pv rest ih =>
    intro rt
    have hstep : addAll rt (pv :: rest) = addAll (AddPattern rt pv.1 pv.2).1 rest := rfl
    rw [hstep, ih]
    have harith : (fun i => mkGroupName (rt.nextGroupID + 1 + i))
        = fun i => mkGroupName (rt.nextGroupID + (i + 1)) :=
      funext fun i => by rw [Nat.add_assoc, Nat.add_comm 1 i]
    simp [AddPattern, List.range_succ_eq_map, List.map_map, Function.comp_def,
      harith]

/-- C6: every table reachable from the constructor by a sequence of pattern
additions carries synthetic group names generated from the monotonically
increasing counter — the k-th added entry holds the name for counter value
1 + k — so the names are pairwise distinct and never reused across
additions for the lifetime of the table. -/
theorem C6_unique_group_names (T : Type) (engine : RegexpEngine)
    (aS aE : Bool) (ps : List (String × T)) :
    (addAll (NewRegexpTableWithEngine T engine aS aE) ps).maplets.map
        (fun vp => vp.GroupName)
      = (List.range ps.length).map (fun i => mkGroupName (1 + i))
    ∧ ((addAll (NewRegexpTableWithEngine T engine aS aE) ps).maplets.map
        (fun vp => vp.GroupName)).Pairwise (· ≠ ·) := by
  have h : (addAll (NewRegexpTableWithEngine T engine aS aE) ps).maplets.map
      (fun vp => vp.GroupName)
      = (List.range ps.length).map (fun i => mkGroupName (1 + i)) := by
    rw [addAll_names T ps (NewRegexpTableWithEngine T engine aS aE)]
    rfl
  refine ⟨h, ?_⟩
  rw [h]
  have hinj : Function.Injective (fun i => mkGroupName (1 + i)) := by
    intro x y hxy
    have := mkGroupName_injective hxy
    omega
  exact List.Nodup.map hinj (List.nodup_range ps.length)

theorem C6_unique_group_names_witness :
    (addAll (NewRegexpTableWithEngine String failEngine false false)
        [("a", "x"), ("b", "y")]).maplets.map (fun vp => vp.GroupName)
      = (List.range 2).map (fun i => mkGroupName (1 + i))
    ∧ ((addAll (NewRegexpTableWithEngine String failEngine false false)
        [("a", "x"), ("b", "y")]).maplets.map (fun vp => vp.GroupName)).Pairwise
        (· ≠ ·) :=
  C6_unique_group_names String failEngine false false [("a", "x"), ("b", "y")]

end Regexptable
